import Mathlib

/-!
Verification of the rootio core of the `hep` repository: the write buffer
(`wbuffer.go`), the record header (`Key`) with its decode, load and object
resolution (`key.go`), and spec-modelled stand-ins for the parts of the
package that are referenced but whose sources are absent (the read buffer
`RBuffer`, the class registry `Factory`, the `File` handle and the zlib
decompressor).

Strings are modelled as lists of bytes (`List Nat`, each entry < 256 in
well-formed data); Go's fixed-width integers are modelled as `Int` with
explicit two's-complement wrapping where the code can overflow.
-/

/-- Big-endian byte value of a byte list: `beVal [a, b] = a * 256 + b`. -/
def beVal (bs : List Nat) : Nat :=
  bs.foldl (fun acc b => acc * 256 + b) 0

/-- Big-endian encoding of `v` on `n` bytes, most significant byte first.
This is exactly what Go's `binary.BigEndian.PutUintN` produces after the
`uintN(v)` conversion: byte `i` (from the most significant end) is
`v / 256 ^ (n - 1 - i) % 256`. -/
def beBytes : Nat → Nat → List Nat
  | 0, _ => []
  | n + 1, v => v / 256 ^ n % 256 :: beBytes n v

/-- Two's-complement reading of an unsigned `w`-bit value, as Go's
`intN` types interpret the raw bytes. -/
def toSigned (w : Nat) (v : Nat) : Int :=
  if v < 2 ^ (w - 1) then (v : Int) else (v : Int) - 2 ^ w

/-- Wrap an integer into the signed 32-bit range, as Go `int32`
arithmetic does on overflow. -/
def wrap32 (x : Int) : Int :=
  (x + 2 ^ 31) % 2 ^ 32 - 2 ^ 31

/-- Wrap an integer into the signed 64-bit range, as Go `int64`
arithmetic does on overflow. -/
def wrap64 (x : Int) : Int :=
  (x + 2 ^ 63) % 2 ^ 64 - 2 ^ 63

/-- Go's `uint32(v)` conversion of a signed value, as a natural number. -/
def u32ofInt (v : Int) : Nat :=
  (v % 2 ^ 32).toNat

/-- Error recorded in a write buffer's sticky error slot (a failure of the
underlying `io.Writer`). -/
inductive WErr where
  | ioFailure : WErr
deriving DecidableEq

/-- WBuffer is a write-only ROOT buffer for streaming (`wbuffer.go`).
The underlying sink `wbuff` is modelled as the byte list already written
(a `bytes.Buffer`, whose writes always succeed); `err` is the sticky
error slot, `offset` the cursor bias and `refs` the back-reference map. -/
structure WBuffer where
  w : List Nat
  err : Option WErr
  offset : Nat
  refs : List (Int × Nat)
deriving DecidableEq

/-- NewWBuffer builds a buffer over `data` with a nil error slot. -/
def NewWBuffer (data : List Nat) (refs : List (Int × Nat)) (offset : Nat) : WBuffer :=
  { w := data, err := none, offset := offset, refs := refs }

/-- Err returns the sticky error slot of the buffer. -/
def WBuffer.Err (wb : WBuffer) : Option WErr :=
  wb.err

/-- The unexported `write` helper: no-op when the error slot is set,
otherwise forwards to the sink and records the sink's (always nil)
error. -/
def WBuffer.write (wb : WBuffer) (p : List Nat) : WBuffer :=
  if wb.err.isSome then wb
  else { wb with w := wb.w ++ p, err := none }

/-- WriteU8 writes one byte (`uint8(v)` truncates to `v % 256`). -/
def WBuffer.WriteU8 (wb : WBuffer) (v : Nat) : WBuffer :=
  if wb.err.isSome then wb
  else { wb with w := wb.w ++ [v % 256], err := none }

/-- WriteU16 writes two big-endian bytes. -/
def WBuffer.WriteU16 (wb : WBuffer) (v : Nat) : WBuffer :=
  if wb.err.isSome then wb
  else { wb with w := wb.w ++ beBytes 2 v, err := none }

/-- WriteU32 writes four big-endian bytes. -/
def WBuffer.WriteU32 (wb : WBuffer) (v : Nat) : WBuffer :=
  if wb.err.isSome then wb
  else { wb with w := wb.w ++ beBytes 4 v, err := none }

/-- WriteU64 writes eight big-endian bytes. -/
def WBuffer.WriteU64 (wb : WBuffer) (v : Nat) : WBuffer :=
  if wb.err.isSome then wb
  else { wb with w := wb.w ++ beBytes 8 v, err := none }

/-- WriteI8 writes one byte (`byte(v)` is the two's-complement byte). -/
def WBuffer.WriteI8 (wb : WBuffer) (v : Int) : WBuffer :=
  if wb.err.isSome then wb
  else { wb with w := wb.w ++ [(v % 2 ^ 8).toNat], err := none }

/-- WriteI16 writes `uint16(v)` as two big-endian bytes. -/
def WBuffer.WriteI16 (wb : WBuffer) (v : Int) : WBuffer :=
  if wb.err.isSome then wb
  else { wb with w := wb.w ++ beBytes 2 (v % 2 ^ 16).toNat, err := none }

/-- WriteI32 writes `uint32(v)` as four big-endian bytes. -/
def WBuffer.WriteI32 (wb : WBuffer) (v : Int) : WBuffer :=
  if wb.err.isSome then wb
  else { wb with w := wb.w ++ beBytes 4 (v % 2 ^ 32).toNat, err := none }

/-- WriteI64 writes `uint64(v)` as eight big-endian bytes. -/
def WBuffer.WriteI64 (wb : WBuffer) (v : Int) : WBuffer :=
  if wb.err.isSome then wb
  else { wb with w := wb.w ++ beBytes 8 (v % 2 ^ 64).toNat, err := none }

/-- WriteF32 writes `math.Float32bits(v)` as four big-endian bytes; the
float argument is represented by its IEEE-754 bit pattern. -/
def WBuffer.WriteF32 (wb : WBuffer) (bits : Nat) : WBuffer :=
  if wb.err.isSome then wb
  else { wb with w := wb.w ++ beBytes 4 bits, err := none }

/-- WriteF64 writes `math.Float64bits(v)` as eight big-endian bytes; the
float argument is represented by its IEEE-754 bit pattern. -/
def WBuffer.WriteF64 (wb : WBuffer) (bits : Nat) : WBuffer :=
  if wb.err.isSome then wb
  else { wb with w := wb.w ++ beBytes 8 bits, err := none }

/-- WriteString writes a length-prefixed string `s` (a byte list): a
255 sentinel and a 4-byte length for strings longer than 254 bytes, a
single length byte otherwise, and an extra zero byte when `s` is empty,
followed by the raw bytes of `s`. -/
def WBuffer.WriteString (wb : WBuffer) (s : List Nat) : WBuffer :=
  if wb.err.isSome then wb
  else
    let wb1 :=
      if 254 < s.length then (wb.WriteU8 255).WriteU32 s.length
      else wb.WriteU8 s.length
    let wb2 := if s.length = 0 then wb1.WriteU8 0 else wb1
    wb2.write s

/-- One invocation of a write primitive, used to quantify over all the
write operations of the buffer. -/
inductive WOp where
  | wstring (s : List Nat)
  | wi8 (v : Int)
  | wi16 (v : Int)
  | wi32 (v : Int)
  | wi64 (v : Int)
  | wu8 (v : Nat)
  | wu16 (v : Nat)
  | wu32 (v : Nat)
  | wu64 (v : Nat)
  | wf32 (bits : Nat)
  | wf64 (bits : Nat)

/-- Apply one write primitive to a buffer. -/
def applyWOp (op : WOp) (wb : WBuffer) : WBuffer :=
  match op with
  | .wstring s => wb.WriteString s
  | .wi8 v => wb.WriteI8 v
  | .wi16 v => wb.WriteI16 v
  | .wi32 v => wb.WriteI32 v
  | .wi64 v => wb.WriteI64 v
  | .wu8 v => wb.WriteU8 v
  | .wu16 v => wb.WriteU16 v
  | .wu32 v => wb.WriteU32 v
  | .wu64 v => wb.WriteU64 v
  | .wf32 b => wb.WriteF32 b
  | .wf64 b => wb.WriteF64 b

/-- C3: on an error-free buffer, WriteString emits sentinel 255 plus a
4-byte big-endian length plus the raw bytes for strings longer than 254
bytes; one length byte plus the raw bytes for non-empty strings of at
most 254 bytes; and exactly two zero bytes for the empty string. -/
theorem wbuffer_writestring_layout (wb : WBuffer) (s : List Nat)
    (hw : wb.err = none) :
    (254 < s.length →
      (wb.WriteString s).w = wb.w ++ 255 :: (beBytes 4 s.length ++ s)) ∧
    (s ≠ [] → s.length ≤ 254 →
      (wb.WriteString s).w = wb.w ++ s.length :: s) ∧
    (s = [] → (wb.WriteString s).w = wb.w ++ [0, 0]) := by
  refine ⟨?_, ?_, ?_⟩
  · intro hlen
    have hne : s.length ≠ 0 := by
      intro h0
      omega
    simp [WBuffer.WriteString, WBuffer.WriteU8, WBuffer.WriteU32, WBuffer.write,
      hw, hlen, Nat.not_lt.mpr, hne, if_neg (Nat.lt_irrefl _)]
  · intro hne hle
    have hlt : ¬ 254 < s.length := by omega
    have hne0 : s.length ≠ 0 := by
      intro h0
      exact hne (List.length_eq_zero.mp h0)
    have hmod : s.length % 256 = s.length := Nat.mod_eq_of_lt (by omega)
    simp [WBuffer.WriteString, WBuffer.WriteU8, WBuffer.write, hw, hlt, hne0, hmod]
  · intro hnil
    subst hnil
    simp [WBuffer.WriteString, WBuffer.WriteU8, WBuffer.write, hw]

/-- Witness for C3 at concrete inputs: an empty buffer, the empty string
and a one-byte string. -/
theorem wbuffer_writestring_layout_witness :
    (NewWBuffer [] [] 0).err = none ∧
    ((NewWBuffer [] [] 0).WriteString []).w = [0, 0] ∧
    ((NewWBuffer [] [] 0).WriteString [65]).w = [1, 65] := by
  have h0 := wbuffer_writestring_layout (NewWBuffer [] [] 0) [] rfl
  have h1 := wbuffer_writestring_layout (NewWBuffer [] [] 0) [65] rfl
  refine ⟨rfl, ?_, ?_⟩
  · have := h0.2.2 rfl
    simpa [NewWBuffer] using this
  · have := h1.2.1 (by simp) (by simp)
    simpa [NewWBuffer] using this

/-- C6: once the sticky error slot of a write buffer is set, every write
primitive leaves the buffer (sink included) unchanged and Err keeps
returning the same first error. -/
theorem wbuffer_sticky_error (op : WOp) (wb : WBuffer) (e : WErr)
    (he : wb.err = some e) :
    applyWOp op wb = wb ∧ (applyWOp op wb).Err = some e := by
  have hsome : wb.err.isSome = true := by simp [he]
  have hfix : applyWOp op wb = wb := by
    cases op <;>
      simp [applyWOp, WBuffer.WriteString, WBuffer.WriteI8, WBuffer.WriteI16,
        WBuffer.WriteI32, WBuffer.WriteI64, WBuffer.WriteU8, WBuffer.WriteU16,
        WBuffer.WriteU32, WBuffer.WriteU64, WBuffer.WriteF32, WBuffer.WriteF64,
        hsome]
  exact ⟨hfix, by rw [hfix, WBuffer.Err, he]⟩

/-- Witness for C6 at a concrete input: a failed buffer ignores a
subsequent WriteU32. -/
theorem wbuffer_sticky_error_witness :
    applyWOp (.wu32 7) ⟨[1], some .ioFailure, 0, []⟩ = ⟨[1], some .ioFailure, 0, []⟩ ∧
    (applyWOp (.wu32 7) ⟨[1], some .ioFailure, 0, []⟩).Err = some .ioFailure :=
  wbuffer_sticky_error (.wu32 7) ⟨[1], some .ioFailure, 0, []⟩ .ioFailure rfl

/-- Error recorded in a read buffer's sticky error slot. -/
inductive RErr where
  | shortRead : RErr
deriving DecidableEq

/-- Modelled from the spec: the read buffer (RBuffer) of the Byte Codec,
whose source file is absent. It owns the byte source, a cursor and a
sticky error slot; reads are big-endian, advance the cursor by exactly
the bytes consumed, and once a read fails all subsequent reads return
the zero value without touching the source. -/
structure RBuffer where
  data : List Nat
  pos : Nat
  err : Option RErr
deriving DecidableEq

/-- NewRBuffer positions a fresh error-free buffer at the start of
`data` (the `offset` bias only affects back-reference bookkeeping, which
no modelled operation consults). -/
def NewRBuffer (data : List Nat) (offset : Nat) : RBuffer :=
  { data := data, pos := 0, err := none }

/-- Err returns the sticky error slot of the read buffer. -/
def RBuffer.Err (r : RBuffer) : Option RErr :=
  r.err

/-- Modelled from the spec: read `n` raw bytes, advancing the cursor;
on a prior error or a short source, return no bytes (the zero value)
and record the failure. -/
def RBuffer.readRaw (r : RBuffer) (n : Nat) : List Nat × RBuffer :=
  if r.err.isSome then ([], r)
  else if r.pos + n ≤ r.data.length then
    ((r.data.drop r.pos).take n, { r with pos := r.pos + n })
  else ([], { r with err := some .shortRead })

/-- Modelled from the spec: read an `n`-byte big-endian unsigned value. -/
def RBuffer.readBE (r : RBuffer) (n : Nat) : Nat × RBuffer :=
  let (bs, r1) := r.readRaw n
  (beVal bs, r1)

/-- ReadU32 reads a 4-byte big-endian unsigned integer. -/
def RBuffer.ReadU32 (r : RBuffer) : Nat × RBuffer :=
  r.readBE 4

/-- ReadI16 reads a 2-byte big-endian two's-complement integer. -/
def RBuffer.ReadI16 (r : RBuffer) : Int × RBuffer :=
  let (v, r1) := r.readBE 2
  (toSigned 16 v, r1)

/-- ReadI32 reads a 4-byte big-endian two's-complement integer. -/
def RBuffer.ReadI32 (r : RBuffer) : Int × RBuffer :=
  let (v, r1) := r.readBE 4
  (toSigned 32 v, r1)

/-- ReadI64 reads an 8-byte big-endian two's-complement integer. -/
def RBuffer.ReadI64 (r : RBuffer) : Int × RBuffer :=
  let (v, r1) := r.readBE 8
  (toSigned 64 v, r1)

/-- ReadString reads a length-prefixed string: one length byte, with 255
as the sentinel for a 4-byte length, then the raw payload bytes. -/
def RBuffer.ReadString (r : RBuffer) : List Nat × RBuffer :=
  let (n, r1) := r.readBE 1
  let (len, r2) := if n = 255 then r1.readBE 4 else (n, r1)
  r2.readRaw len

/-- Modelled from the spec: `datime2time` decodes the 4-byte timestamp
into a time value via a format-specific epoch encoding; the model keeps
the raw 32-bit value, which is injective and enough for every claim. -/
def datime2time (v : Nat) : Nat :=
  v

/-- The class-name sentinel `"[GAP]"` marking a gap (deleted/free)
record, as a byte list. -/
def gapClass : List Nat :=
  [91, 71, 65, 80, 93]

/-- A decoded ROOT object. The model keeps only an opaque
representation list, which is enough to track identity, caching and
decode outcomes. -/
structure Obj where
  repr : List Nat
deriving DecidableEq

/-- Key is the record header of one stored object (`key.go`): sizes,
version, timestamp, cycle, file offsets, class/name/title strings and
the lazily decoded cached object. Fixed-width Go fields are modelled as
`Int`; `class` is spelled `klass` (Lean keyword). -/
structure Key where
  bytes : Int
  version : Int
  objlen : Int
  datetime : Nat
  keylen : Int
  cycle : Int
  seekkey : Int
  seekpdir : Int
  klass : List Nat
  name : List Nat
  title : List Nat
  obj : Option Obj
deriving DecidableEq

/-- Class returns the object class name of the key. -/
def Key.Class (k : Key) : List Nat :=
  k.klass

/-- Name returns the object name of the key. -/
def Key.Name (k : Key) : List Nat :=
  k.name

/-- Title returns the object title of the key. -/
def Key.Title (k : Key) : List Nat :=
  k.title

/-- Cycle returns the cycle number of the key. -/
def Key.Cycle (k : Key) : Int :=
  k.cycle

/-- UnmarshalROOT decodes the content of the buffer into the Key: an
immediate return of the sticky error when it is already set, the gap
short-circuit on a negative total length, then the fixed fields, the
version-dependent 32-bit or 64-bit offsets, and the three strings. -/
def Key.UnmarshalROOT (k : Key) (r : RBuffer) : Option RErr × Key × RBuffer :=
  if r.err.isSome then (r.err, k, r)
  else
    let (bytes, r1) := r.ReadI32
    if bytes < 0 then (none, { k with bytes := bytes, klass := gapClass }, r1)
    else
      let (version, r2) := r1.ReadI16
      let (objlen, r3) := r2.ReadI32
      let (dt, r4) := r3.ReadU32
      let (keylen, r5) := r4.ReadI16
      let (cycle, r6) := r5.ReadI16
      let (seekkey, seekpdir, r7) :=
        if 1000 < version then
          let (sk, ra) := r6.ReadI64
          let (sp, rb) := ra.ReadI64
          (sk, sp, rb)
        else
          let (sk, ra) := r6.ReadI32
          let (sp, rb) := ra.ReadI32
          ((sk : Int), (sp : Int), rb)
      let (klass, r8) := r7.ReadString
      let (name, r9) := r8.ReadString
      let (title, r10) := r9.ReadString
      (r10.err,
       { bytes := bytes, version := version, objlen := objlen,
         datetime := datime2time dt, keylen := keylen, cycle := cycle,
         seekkey := seekkey, seekpdir := seekpdir,
         klass := klass, name := name, title := title, obj := k.obj },
       r10)

/-- The `n` bytes of the buffer `off` bytes past the current cursor. -/
def sliceAt (r : RBuffer) (off n : Nat) : List Nat :=
  (r.data.drop (r.pos + off)).take n

/-- A successful raw read on an error-free buffer returns the slice at
the cursor and advances the cursor by exactly `n`. -/
theorem readRaw_eq (d : List Nat) (p n q : Nat) (hq : p + n = q)
    (h : q ≤ d.length) :
    RBuffer.readRaw ⟨d, p, none⟩ n = ((d.drop p).take n, ⟨d, q, none⟩) := by
  subst hq
  simp [RBuffer.readRaw, h]

/-- A successful big-endian read on an error-free buffer. -/
theorem readBE_eq (d : List Nat) (p n q : Nat) (hq : p + n = q)
    (h : q ≤ d.length) :
    RBuffer.readBE ⟨d, p, none⟩ n = (beVal ((d.drop p).take n), ⟨d, q, none⟩) := by
  simp [RBuffer.readBE, readRaw_eq d p n q hq h]

/-- A successful ReadI32 on an error-free buffer. -/
theorem ReadI32_eq (d : List Nat) (p q : Nat) (hq : p + 4 = q)
    (h : q ≤ d.length) :
    RBuffer.ReadI32 ⟨d, p, none⟩ =
      (toSigned 32 (beVal ((d.drop p).take 4)), ⟨d, q, none⟩) := by
  simp [RBuffer.ReadI32, readBE_eq d p 4 q hq h]

/-- A successful ReadI16 on an error-free buffer. -/
theorem ReadI16_eq (d : List Nat) (p q : Nat) (hq : p + 2 = q)
    (h : q ≤ d.length) :
    RBuffer.ReadI16 ⟨d, p, none⟩ =
      (toSigned 16 (beVal ((d.drop p).take 2)), ⟨d, q, none⟩) := by
  simp [RBuffer.ReadI16, readBE_eq d p 2 q hq h]

/-- A successful ReadI64 on an error-free buffer. -/
theorem ReadI64_eq (d : List Nat) (p q : Nat) (hq : p + 8 = q)
    (h : q ≤ d.length) :
    RBuffer.ReadI64 ⟨d, p, none⟩ =
      (toSigned 64 (beVal ((d.drop p).take 8)), ⟨d, q, none⟩) := by
  simp [RBuffer.ReadI64, readBE_eq d p 8 q hq h]

/-- A successful ReadU32 on an error-free buffer. -/
theorem ReadU32_eq (d : List Nat) (p q : Nat) (hq : p + 4 = q)
    (h : q ≤ d.length) :
    RBuffer.ReadU32 ⟨d, p, none⟩ =
      (beVal ((d.drop p).take 4), ⟨d, q, none⟩) := by
  simp [RBuffer.ReadU32, readBE_eq d p 4 q hq h]

/-- The all-zero record header used as the pristine receiver of decodes. -/
def key0 : Key :=
  { bytes := 0, version := 0, objlen := 0, datetime := 0, keylen := 0,
    cycle := 0, seekkey := 0, seekpdir := 0, klass := [], name := [],
    title := [], obj := none }

/-- C10: invoking UnmarshalROOT on a buffer whose sticky error slot is
already set returns that error immediately and leaves the Key and the
buffer unchanged. -/
theorem key_unmarshal_sticky_error (k : Key) (r : RBuffer) (e : RErr)
    (he : r.err = some e) :
    k.UnmarshalROOT r = (some e, k, r) := by
  simp [Key.UnmarshalROOT, he]

/-- Witness for C10 at a concrete input. -/
theorem key_unmarshal_sticky_error_witness :
    key0.UnmarshalROOT ⟨[0, 0, 0, 1], 0, some .shortRead⟩ =
      (some .shortRead, key0, ⟨[0, 0, 0, 1], 0, some .shortRead⟩) :=
  key_unmarshal_sticky_error key0 ⟨[0, 0, 0, 1], 0, some .shortRead⟩ .shortRead rfl

/-- C7: when the first 4-byte total-length field decodes to a negative
value, UnmarshalROOT marks the class with the gap sentinel, reads no
further field (the cursor advances by exactly 4), touches no other Key
field, and returns no error. -/
theorem key_gap_on_negative_length (k : Key) (d : List Nat) (p : Nat)
    (hlen : p + 4 ≤ d.length)
    (hneg : toSigned 32 (beVal ((d.drop p).take 4)) < 0) :
    k.UnmarshalROOT ⟨d, p, none⟩ =
      (none,
       { k with bytes := toSigned 32 (beVal ((d.drop p).take 4)), klass := gapClass },
       ⟨d, p + 4, none⟩) := by
  simp [Key.UnmarshalROOT, ReadI32_eq d p (p + 4) rfl hlen, hneg]

/-- Witness for C7 at a concrete input: a header starting with the bytes
255 255 255 251, which decode to the total length -5. -/
theorem key_gap_on_negative_length_witness :
    key0.UnmarshalROOT ⟨[255, 255, 255, 251, 9, 9], 0, none⟩ =
      (none, { key0 with bytes := -5, klass := gapClass },
       ⟨[255, 255, 255, 251, 9, 9], 4, none⟩) := by
  have h := key_gap_on_negative_length key0 [255, 255, 255, 251, 9, 9] 0
    (by decide) (by decide)
  have hv : toSigned 32 (beVal (([255, 255, 255, 251, 9, 9].drop 0).take 4)) = -5 := by
    decide
  rw [h, hv]

/-- C1 (amended): for a record header decoded by UnmarshalROOT with a
non-negative total length, the record-offset and directory-offset fields
are parsed as 32-bit integers widened to 64-bit when the header version
is at most 1000, and as 64-bit integers when the version is strictly
greater than 1000. -/
theorem key_offset_width_selection (k : Key) (d : List Nat) (p : Nat)
    (hb : 0 ≤ toSigned 32 (beVal ((d.drop p).take 4))) :
    (toSigned 16 (beVal ((d.drop (p + 4)).take 2)) ≤ 1000 →
      p + 26 ≤ d.length →
      ((k.UnmarshalROOT ⟨d, p, none⟩).2.1.version =
          toSigned 16 (beVal ((d.drop (p + 4)).take 2)) ∧
        (k.UnmarshalROOT ⟨d, p, none⟩).2.1.seekkey =
          toSigned 32 (beVal ((d.drop (p + 18)).take 4)) ∧
        (k.UnmarshalROOT ⟨d, p, none⟩).2.1.seekpdir =
          toSigned 32 (beVal ((d.drop (p + 22)).take 4)))) ∧
    (1000 < toSigned 16 (beVal ((d.drop (p + 4)).take 2)) →
      p + 34 ≤ d.length →
      ((k.UnmarshalROOT ⟨d, p, none⟩).2.1.version =
          toSigned 16 (beVal ((d.drop (p + 4)).take 2)) ∧
        (k.UnmarshalROOT ⟨d, p, none⟩).2.1.seekkey =
          toSigned 64 (beVal ((d.drop (p + 18)).take 8)) ∧
        (k.UnmarshalROOT ⟨d, p, none⟩).2.1.seekpdir =
          toSigned 64 (beVal ((d.drop (p + 26)).take 8)))) := by
  have hb' : ¬ toSigned 32 (beVal ((d.drop p).take 4)) < 0 := not_lt.mpr hb
  constructor
  · intro hv hlen
    have hv' : ¬ 1000 < toSigned 16 (beVal ((d.drop (p + 4)).take 2)) := not_lt.mpr hv
    have h1 := ReadI32_eq d p (p + 4) rfl (by omega)
    have h2 := ReadI16_eq d (p + 4) (p + 6) (by omega) (by omega)
    have h3 := ReadI32_eq d (p + 6) (p + 10) (by omega) (by omega)
    have h4 := ReadU32_eq d (p + 10) (p + 14) (by omega) (by omega)
    have h5 := ReadI16_eq d (p + 14) (p + 16) (by omega) (by omega)
    have h6 := ReadI16_eq d (p + 16) (p + 18) (by omega) (by omega)
    have h7 := ReadI32_eq d (p + 18) (p + 22) (by omega) (by omega)
    have h8 := ReadI32_eq d (p + 22) (p + 26) (by omega) (by omega)
    rcases hs1 : RBuffer.ReadString ⟨d, p + 26, none⟩ with ⟨kls, r8⟩
    rcases hs2 : RBuffer.ReadString r8 with ⟨nm, r9⟩
    rcases hs3 : RBuffer.ReadString r9 with ⟨tl, r10⟩
    simp [Key.UnmarshalROOT, h1, h2, h3, h4, h5, h6, h7, h8, hs1, hs2, hs3,
      hb', hv']
  · intro hv hlen
    have hv' : 1000 < toSigned 16 (beVal ((d.drop (p + 4)).take 2)) := hv
    have h1 := ReadI32_eq d p (p + 4) rfl (by omega)
    have h2 := ReadI16_eq d (p + 4) (p + 6) (by omega) (by omega)
    have h3 := ReadI32_eq d (p + 6) (p + 10) (by omega) (by omega)
    have h4 := ReadU32_eq d (p + 10) (p + 14) (by omega) (by omega)
    have h5 := ReadI16_eq d (p + 14) (p + 16) (by omega) (by omega)
    have h6 := ReadI16_eq d (p + 16) (p + 18) (by omega) (by omega)
    have h7 := ReadI64_eq d (p + 18) (p + 26) (by omega) (by omega)
    have h8 := ReadI64_eq d (p + 26) (p + 34) (by omega) (by omega)
    rcases hs1 : RBuffer.ReadString ⟨d, p + 34, none⟩ with ⟨kls, r8⟩
    rcases hs2 : RBuffer.ReadString r8 with ⟨nm, r9⟩
    rcases hs3 : RBuffer.ReadString r9 with ⟨tl, r10⟩
    simp [Key.UnmarshalROOT, h1, h2, h3, h4, h5, h6, h7, h8, hs1, hs2, hs3,
      hb', hv']

/-- A concrete header whose version field is exactly 1000 and whose
offset area holds the bytes 0 0 0 1 0 0 0 2. -/
def data1000 : List Nat :=
  [0, 0, 0, 100, 3, 232, 0, 0, 0, 10, 0, 0, 0, 0, 0, 30, 0, 1,
   0, 0, 0, 1, 0, 0, 0, 2, 1, 65, 1, 66, 1, 67]

/-- Counterexample to C1 as stated: at header version exactly 1000 the
offsets are parsed as 32-bit integers (seekkey = 1), not as the 64-bit
integer the bytes at offset 18 would give. -/
theorem key_offset_width_at_1000_counterexample :
    (key0.UnmarshalROOT ⟨data1000, 0, none⟩).2.1.version = 1000 ∧
    (key0.UnmarshalROOT ⟨data1000, 0, none⟩).2.1.seekkey = 1 ∧
    (key0.UnmarshalROOT ⟨data1000, 0, none⟩).2.1.seekkey ≠
      toSigned 64 (beVal ((data1000.drop 18).take 8)) := by
  decide

/-- A concrete header with version 500 (below the 1000 boundary). -/
def data500 : List Nat :=
  [0, 0, 0, 100, 1, 244, 0, 0, 0, 10, 0, 0, 0, 0, 0, 30, 0, 1,
   0, 0, 0, 7, 0, 0, 0, 8, 1, 65, 1, 66, 1, 67]

/-- Witness for the amended C1 at a concrete input: version 500 parses
its offsets as 32-bit integers. -/
theorem key_offset_width_selection_witness :
    (key0.UnmarshalROOT ⟨data500, 0, none⟩).2.1.version = 500 ∧
    (key0.UnmarshalROOT ⟨data500, 0, none⟩).2.1.seekkey = 7 ∧
    (key0.UnmarshalROOT ⟨data500, 0, none⟩).2.1.seekpdir = 8 := by
  have h := (key_offset_width_selection key0 data500 0 (by decide)).1
    (by decide) (by decide)
  refine ⟨?_, ?_, ?_⟩
  · rw [h.1]
    decide
  · rw [h.2.1]
    decide
  · rw [h.2.2]
    decide

/-- Error produced while acquiring a record's payload bytes. -/
inductive LErr where
  | shortRead : LErr
  | zlibFailure : LErr
deriving DecidableEq

/-- Error surfaced by Object resolution: an I/O or decompression
failure from load, the absence of a registered factory, one of the two
capability mismatches, or a failure reported by the object's own decode
or by a nested directory's child-record scan. -/
inductive OErr where
  | io (e : LErr)
  | unknownClass
  | notObject
  | notROOTUnmarshaler
  | decodeFailure (n : Nat)
  | dirScanFailure (n : Nat)
deriving DecidableEq

/-- Modelled from the spec: a registered constructor together with the
capability set of the instances it builds — whether they satisfy the
storable-object and self-decode interfaces, accept a file back-reference,
and are directory-capable with a child-record scan outcome. -/
structure Ctor where
  isObject : Bool
  isROOTUnmarshaler : Bool
  unmarshalROOT : List Nat → Nat → Except OErr Obj
  isSetFiler : Bool
  isDirectory : Bool
  readKeys : Except OErr Unit

/-- Modelled from the spec: the File handle collaborator and its
companions that have no source under inspection. `file` is the byte
content exposed to random-access range reads, `inflate` the external
deflate-compatible streaming decompressor, and `factory` the Class
Registry lookup (`Factory.Get`), mapping a class name to the registered
constructor when one exists. -/
structure Env where
  file : List Nat
  inflate : List Nat → Except LErr (List Nat)
  factory : List Nat → Option Ctor

/-- isCompressed reports whether the record's payload is compressed:
the single arithmetic signal `objlen != bytes - keylen`, with the
subtraction performed in Go `int32` arithmetic. -/
def Key.isCompressed (k : Key) : Bool :=
  decide (k.objlen ≠ wrap32 (k.bytes - k.keylen))

/-- Semantics of `io.ReadFull` over an `io.SectionReader`: reading `n`
bytes from the section of `f` that starts at `start` with length
`secLen` yields those bytes exactly when the offset is non-negative and
both the section and the file hold at least `n` bytes there. -/
def readFull (f : List Nat) (start secLen : Int) (n : Nat) : Except LErr (List Nat) :=
  if 0 ≤ start ∧ (n : Int) ≤ secLen ∧ start + n ≤ f.length then
    .ok ((f.drop start.toNat).take n)
  else
    .error .shortRead

/-- Observable outcome of one load() call: the returned payload or
error, which of the two paths ran, and the byte range of each section
reader created (absolute start offset and section length). -/
structure LoadOut where
  result : Except LErr (List Nat)
  pathCompressed : Bool
  sections : List (Int × Int)

/-- load acquires the record's payload: it sizes the destination buffer
to `objlen` when the supplied one is smaller, and either feeds the bytes
after the 9-byte compression sub-header through the decompressor until
the buffer is full (compressed path) or reads the byte range of length
`bytes` starting right after the header (uncompressed path). Offsets
are computed in Go `int64` arithmetic. -/
def Key.load (k : Key) (env : Env) (buf0 : List Nat) : LoadOut :=
  let buf := if (buf0.length : Int) < k.objlen then List.replicate k.objlen.toNat 0 else buf0
  if k.isCompressed then
    let start := wrap64 (k.seekkey + k.keylen + 9)
    let secLen := k.bytes - k.keylen
    { pathCompressed := true,
      sections := [(start, secLen)],
      result :=
        if start < 0 then .error .shortRead
        else
          match env.inflate ((env.file.drop start.toNat).take secLen.toNat) with
          | .error e => .error e
          | .ok out =>
            if buf.length ≤ out.length then .ok (out.take buf.length)
            else .error .shortRead }
  else
    let start := wrap64 (k.seekkey + k.keylen)
    { pathCompressed := false,
      sections := [(start, k.bytes)],
      result := readFull env.file start k.bytes buf.length }

/-- Bytes returns the buffer of bytes corresponding to the Key's value,
by loading with a nil destination buffer. -/
def Key.Bytes (k : Key) (env : Env) : Except LErr (List Nat) :=
  (k.load env []).result

/-- Observable outcome of one Object() call: the resolved object or
error, the resulting header (with the cache slot possibly filled), and
how many load and decode operations ran. -/
structure ObjectOut where
  result : Except OErr Obj
  key : Key
  loads : Nat
  decodes : Nat

/-- Object returns the (ROOT) object corresponding to the Key's value:
the cached instance when one exists, otherwise load, registry lookup,
the two capability checks, the instance's self-decode, the optional
directory child scan, and finally caching of the decoded instance. -/
def Key.Object (k : Key) (env : Env) : ObjectOut :=
  match k.obj with
  | some o => { result := .ok o, key := k, loads := 0, decodes := 0 }
  | none =>
    match (k.load env []).result with
    | .error e => { result := .error (.io e), key := k, loads := 1, decodes := 0 }
    | .ok buf =>
      match env.factory k.Class with
      | none => { result := .error .unknownClass, key := k, loads := 1, decodes := 0 }
      | some fct =>
        if fct.isObject = false then
          { result := .error .notObject, key := k, loads := 1, decodes := 0 }
        else if fct.isROOTUnmarshaler = false then
          { result := .error .notROOTUnmarshaler, key := k, loads := 1, decodes := 0 }
        else
          match fct.unmarshalROOT buf (u32ofInt k.keylen) with
          | .error e => { result := .error e, key := k, loads := 1, decodes := 1 }
          | .ok obj =>
            if fct.isDirectory then
              match fct.readKeys with
              | .error e => { result := .error e, key := k, loads := 1, decodes := 1 }
              | .ok _ =>
                { result := .ok obj, key := { k with obj := some obj }, loads := 1, decodes := 1 }
            else
              { result := .ok obj, key := { k with obj := some obj }, loads := 1, decodes := 1 }

/-- Outcome of Value: the object, or a process abort (Go panic) carrying
the error raised by Object. -/
inductive VOut where
  | ok (o : Obj)
  | panicked (e : OErr)
deriving DecidableEq

/-- Value returns the data corresponding to the Key's value and panics
when Object resolution fails. -/
def Key.Value (k : Key) (env : Env) : VOut :=
  match (k.Object env).result with
  | .ok o => .ok o
  | .error e => .panicked e

/-- wrap32 is the identity on values already in the signed 32-bit range. -/
theorem wrap32_eq_self (x : Int) (h1 : -(2 ^ 31) ≤ x) (h2 : x < 2 ^ 31) :
    wrap32 x = x := by
  unfold wrap32
  rw [Int.emod_eq_of_lt (by omega) (by omega)]
  omega

/-- wrap64 is the identity on values already in the signed 64-bit range. -/
theorem wrap64_eq_self (x : Int) (h1 : -(2 ^ 63) ≤ x) (h2 : x < 2 ^ 63) :
    wrap64 x = x := by
  unfold wrap64
  rw [Int.emod_eq_of_lt (by omega) (by omega)]
  omega

/-- load runs the decompression path exactly when isCompressed holds. -/
theorem load_path_eq (k : Key) (env : Env) (buf0 : List Nat) :
    (k.load env buf0).pathCompressed = k.isCompressed := by
  unfold Key.load
  by_cases h : k.isCompressed <;> simp [h]

/-- The environment with nothing registered and an always-failing
decompressor, over a 16-byte zero file. -/
def envNoReg : Env :=
  { file := List.replicate 16 0,
    inflate := fun _ => .error .zlibFailure,
    factory := fun _ => none }

/-- C2: a record is classified as compressed iff its uncompressed length
differs from total length minus header length, and load takes the
decompression path exactly when that inequality holds (stated for
headers whose `bytes - keylen` does not overflow `int32`). -/
theorem key_compression_signal (env : Env) (k : Key) (buf0 : List Nat)
    (h1 : -(2 ^ 31) ≤ k.bytes - k.keylen) (h2 : k.bytes - k.keylen < 2 ^ 31) :
    (k.isCompressed = true ↔ k.objlen ≠ k.bytes - k.keylen) ∧
    ((k.load env buf0).pathCompressed = true ↔ k.objlen ≠ k.bytes - k.keylen) := by
  have hw := wrap32_eq_self _ h1 h2
  have hc : k.isCompressed = true ↔ k.objlen ≠ k.bytes - k.keylen := by
    simp [Key.isCompressed, hw]
  refine ⟨hc, ?_⟩
  rw [load_path_eq]
  exact hc

/-- Witness for C2 at concrete inputs: `objlen = bytes - keylen` is the
uncompressed case and `objlen ≠ bytes - keylen` the compressed one. -/
theorem key_compression_signal_witness :
    ({ key0 with bytes := 10, keylen := 5, objlen := 4 } : Key).isCompressed = true ∧
    ({ key0 with bytes := 10, keylen := 5, objlen := 5 } : Key).isCompressed = false := by
  have hA := key_compression_signal envNoReg
    { key0 with bytes := 10, keylen := 5, objlen := 4 } [] (by decide) (by decide)
  have hB := key_compression_signal envNoReg
    { key0 with bytes := 10, keylen := 5, objlen := 5 } [] (by decide) (by decide)
  refine ⟨hA.1.mpr (by decide), ?_⟩
  have h5 : ¬ ({ key0 with bytes := 10, keylen := 5, objlen := 5 } : Key).isCompressed = true :=
    fun hx => (hB.1.mp hx) (by decide)
  simp only [Bool.not_eq_true] at h5
  exact h5

/-- C5: when the record is not compressed, load creates a single section
reader covering exactly `bytes` bytes starting right after the header,
at absolute offset `seekkey + keylen` (stated for offsets that do not
overflow `int64`). -/
theorem key_uncompressed_direct_read (env : Env) (k : Key) (buf0 : List Nat)
    (hnc : k.isCompressed = false)
    (h1 : -(2 ^ 63) ≤ k.seekkey + k.keylen) (h2 : k.seekkey + k.keylen < 2 ^ 63) :
    (k.load env buf0).pathCompressed = false ∧
    (k.load env buf0).sections = [(k.seekkey + k.keylen, k.bytes)] := by
  have hw := wrap64_eq_self _ h1 h2
  constructor
  · rw [load_path_eq, hnc]
  · simp [Key.load, hnc, hw]

/-- Witness for C5 at a concrete input: an uncompressed record at
seekkey 100 with a 5-byte header reads the range starting at 105. -/
theorem key_uncompressed_direct_read_witness :
    (({ key0 with bytes := 10, keylen := 5, objlen := 5, seekkey := 100 } : Key).load
        envNoReg []).sections = [(105, 10)] := by
  have h := key_uncompressed_direct_read envNoReg
    { key0 with bytes := 10, keylen := 5, objlen := 5, seekkey := 100 } []
    (by decide) (by decide) (by decide)
  rw [h.2]
  norm_num

/-- A registered constructor whose instances hold every required
capability and whose self-decode always succeeds with a fixed object. -/
def ctorOK : Ctor :=
  { isObject := true, isROOTUnmarshaler := true,
    unmarshalROOT := fun _ _ => .ok ⟨[7]⟩,
    isSetFiler := false, isDirectory := false, readKeys := .ok () }

/-- The environment that registers class "A" (byte 65) with `ctorOK`. -/
def envReg : Env :=
  { file := List.replicate 16 0,
    inflate := fun _ => .error .zlibFailure,
    factory := fun s => if s = [65] then some ctorOK else none }

/-- An uncompressed record header of class "A" whose zero-length payload
loads successfully from the 16-byte file. -/
def keyW : Key :=
  { key0 with bytes := 10, keylen := 10, objlen := 0, klass := [65] }

/-- Counterexample to C4 as stated: resolving a record whose class is
unregistered through Value aborts (Go panic) instead of returning the
error as a value. -/
theorem key_value_panics_counterexample :
    keyW.Value envNoReg = .panicked .unknownClass := by
  rfl

/-- C4 (amended): record-header decoding and object resolution return
their errors as values (Object yields an error result), but Value panics
exactly when Object resolution fails, so the core is not panic-free. -/
theorem key_errors_as_values_value_panics (env : Env) (k : Key) :
    (∀ e, k.Value env = .panicked e ↔ (k.Object env).result = .error e) ∧
    (∀ o, k.Value env = .ok o ↔ (k.Object env).result = .ok o) := by
  cases h : (k.Object env).result with
  | ok o => exact ⟨fun e => by simp [Key.Value, h], fun o2 => by simp [Key.Value, h]⟩
  | error e => exact ⟨fun e2 => by simp [Key.Value, h], fun o => by simp [Key.Value, h]⟩

/-- C8: once Object has resolved successfully, the header caches the
instance, and a second Object call on the resulting header returns the
identical instance with zero load and zero decode operations. -/
theorem key_object_memoized (env : Env) (k : Key) (o : Obj) (k2 : Key)
    (l d : Nat)
    (h : k.Object env = { result := .ok o, key := k2, loads := l, decodes := d }) :
    k2.Object env = { result := .ok o, key := k2, loads := 0, decodes := 0 } := by
  have hobj : k2.obj = some o := by
    cases hk : k.obj with
    | some o0 =>
      simp only [Key.Object, hk, ObjectOut.mk.injEq, Except.ok.injEq] at h
      obtain ⟨ho, hk2, -, -⟩ := h
      rw [← hk2, hk, ho]
    | none =>
      cases hl : (k.load env []).result with
      | error e => simp [Key.Object, hk, hl] at h
      | ok buf =>
        cases hf : env.factory k.Class with
        | none => simp [Key.Object, hk, hl, hf] at h
        | some fct =>
          by_cases hio : fct.isObject = false
          · simp [Key.Object, hk, hl, hf, hio] at h
          · by_cases hiu : fct.isROOTUnmarshaler = false
            · simp [Key.Object, hk, hl, hf, hio, hiu] at h
            · cases hm : fct.unmarshalROOT buf (u32ofInt k.keylen) with
              | error e => simp [Key.Object, hk, hl, hf, hio, hiu, hm] at h
              | ok obj =>
                by_cases hd : fct.isDirectory = true
                · cases hr : fct.readKeys with
                  | error e => simp [Key.Object, hk, hl, hf, hio, hiu, hm, hd, hr] at h
                  | ok u =>
                    simp only [Key.Object, hk, hl, hf, hio, hiu, hm, hd, hr,
                      if_true, if_false, eq_self_iff_true, Bool.false_eq_true,
                      ite_true, ite_false, ObjectOut.mk.injEq, Except.ok.injEq] at h
                    obtain ⟨rfl, rfl, -, -⟩ := h
                    rfl
                · simp only [Key.Object, hk, hl, hf, hio, hiu, hm, hd,
                    Bool.false_eq_true, ite_false, ite_true,
                    ObjectOut.mk.injEq, Except.ok.injEq] at h
                  obtain ⟨rfl, rfl, -, -⟩ := h
                  rfl
  simp [Key.Object, hobj]

/-- Witness for C8 at a concrete input: after keyW resolves to the
object with representation [7], the updated header answers from the
cache with no further load or decode. -/
theorem key_object_memoized_witness :
    ({ keyW with obj := some ⟨[7]⟩ } : Key).Object envReg =
      { result := .ok ⟨[7]⟩, key := { keyW with obj := some ⟨[7]⟩ },
        loads := 0, decodes := 0 } :=
  key_object_memoized envReg keyW ⟨[7]⟩ { keyW with obj := some ⟨[7]⟩ } 1 1 rfl

/-- C9: when the class name has no registry entry (and the header has no
cached object and its payload loads), Object returns the unknown-class
error, leaves every field of the header unchanged (the cache slot stays
unset), and the same header still resolves successfully under an
environment that registers the class over the same file. -/
theorem key_object_unknown_class (env : Env) (k : Key) (buf : List Nat)
    (hc : k.obj = none)
    (hl : (k.load env []).result = .ok buf)
    (hf : env.factory k.Class = none) :
    k.Object env = { result := .error .unknownClass, key := k, loads := 1, decodes := 0 } ∧
    ∃ env2 : Env, env2.file = env.file ∧ env2.inflate = env.inflate ∧
      ∃ o : Obj, (k.Object env2).result = .ok o := by
  constructor
  · simp [Key.Object, hc, hl, hf]
  · refine ⟨{ env with factory := fun s => if s = k.Class then some ctorOK else env.factory s },
      rfl, rfl, ⟨[7]⟩, ?_⟩
    have hl2 : (k.load { env with
        factory := fun s => if s = k.Class then some ctorOK else env.factory s } []).result =
        .ok buf := hl
    simp only [Key.Object, hc, hl2]
    simp [ctorOK]

/-- Witness for C9 at a concrete input: keyW under the empty registry. -/
theorem key_object_unknown_class_witness :
    keyW.Object envNoReg =
      { result := .error .unknownClass, key := keyW, loads := 1, decodes := 0 } ∧
    ∃ env2 : Env, env2.file = envNoReg.file ∧ env2.inflate = envNoReg.inflate ∧
      ∃ o : Obj, (keyW.Object env2).result = .ok o :=
  key_object_unknown_class envNoReg keyW [] rfl rfl rfl
